import Mathlib

/-!
# Verification of the arcgis_sketch_tool core

Shallow embedding of the sketch/annotation core:

* `ExportService` (src/app/services/export.service.ts): versioned import of a
  persisted payload.
* `MeasurementService` (src/app/services/measurement.service.ts): geodesic
  length/area/perimeter/radius, segment decomposition, formatting.
* `SketchService` (src/app/services/sketch.service.ts, in the source tree the
  file that also declares `DrawSettings`): the editing state machine, the label
  placement engine, the selection clone map and the label index.

External collaborators (the ArcGIS geometry engine, the view's screen/world
projector, `Number.prototype.toFixed`, `Math.atan2`/`Math.cos`/`Math.sin`
composed with the degree conversion, and the `Date.now()`/`Math.random()`
id-string source) are modelled as an explicit `Engine` record of oracles:
the embedded code calls them exactly where the TypeScript calls out of the
repository.  JavaScript numbers that can be `NaN`/`Infinity` are modelled by
`JSNum`; plain coordinates and angles (always finite in the embedded paths)
are rationals.
-/

namespace Sketch

/-! ## Basic data: points, geometries, JS numbers -/

/-- A 2-D coordinate (a `[x, y]` vertex or an `@arcgis` `Point`). -/
structure Pt where
  x : ℚ
  y : ℚ
deriving DecidableEq, Repr, Inhabited

/-- The geometries the core handles: `Point`, `Polyline` (paths) and
`Polygon` (rings). -/
inductive Geom where
  | point (p : Pt)
  | polyline (paths : List (List Pt))
  | polygon (rings : List (List Pt))
deriving DecidableEq, Repr, Inhabited

/-- A JavaScript `number` as the measurement paths see it: a finite value,
`NaN`, or a signed infinity. -/
inductive JSNum where
  | num (q : ℚ)
  | nan
  | inf
  | ninf
deriving DecidableEq, Repr, Inhabited

namespace JSNum

/-- JS `isFinite`. -/
def isFinite : JSNum → Bool
  | num _ => true
  | _ => false

/-- JS `v === 0`. -/
def eqZero : JSNum → Bool
  | num q => q = 0
  | _ => false

/-- JS `Math.abs v >= c` (for a finite threshold `c`); `NaN` compares false. -/
def absGe (v : JSNum) (c : ℚ) : Bool :=
  match v with
  | num q => c ≤ |q|
  | nan => false
  | inf => true
  | ninf => true

/-- JS division of `v` by a positive finite constant `c`. -/
def divPos (v : JSNum) (c : ℚ) : JSNum :=
  match v with
  | num q => num (q / c)
  | nan => nan
  | inf => inf
  | ninf => ninf

end JSNum

/-! ## Unit configuration (MeasurementService fields) -/

/-- `LinearUnit` from measurement.service.ts. -/
inductive LinearUnit where
  | meters
  | kilometers
  | feet
  | yards
  | miles
  | nauticalMiles
deriving DecidableEq, Repr

/-- The TS string literal of a `LinearUnit` (used as a formatting suffix). -/
def LinearUnit.str : LinearUnit → String
  | .meters => "meters"
  | .kilometers => "kilometers"
  | .feet => "feet"
  | .yards => "yards"
  | .miles => "miles"
  | .nauticalMiles => "nautical-miles"

/-- `AreaUnit` from measurement.service.ts. -/
inductive AreaUnit where
  | squareMeters
  | squareKilometers
  | squareFeet
  | squareYards
  | squareMiles
  | acres
  | hectares
deriving DecidableEq, Repr

/-- The TS string literal of an `AreaUnit`. -/
def AreaUnit.str : AreaUnit → String
  | .squareMeters => "square-meters"
  | .squareKilometers => "square-kilometers"
  | .squareFeet => "square-feet"
  | .squareYards => "square-yards"
  | .squareMiles => "square-miles"
  | .acres => "acres"
  | .hectares => "hectares"

/-- The mutable unit configuration of `MeasurementService`
(`lengthUnit`, `areaUnit`, `decimals`). -/
structure MeasCfg where
  lengthUnit : LinearUnit := .meters
  areaUnit : AreaUnit := .squareMeters
  decimals : Nat := 2
deriving DecidableEq, Repr

/-! ## DrawSettings (models/draw-settings.ts) -/

/-- `GeometryTool` from models/draw-settings.ts. -/
inductive GeometryTool where
  | point
  | polyline
  | polygon
  | rectangle
  | circle
  | text
deriving DecidableEq, Repr

/-- The `text` sub-record of `DrawSettings`. -/
structure TextSettings where
  content : String
  fontFamily : String
  fontSize : ℚ
  color : String
  haloColor : String
  haloSize : ℚ
deriving DecidableEq, Repr

/-- The `labels` visibility policy of `DrawSettings`. -/
structure LabelSettings where
  showDuringDraw : Bool
  showSegmentLengths : Bool
  showTotals : Bool
  showCircleRadius : Bool
  showTitle : Bool
deriving DecidableEq, Repr

/-- `DrawSettings` from models/draw-settings.ts. -/
structure DrawSettings where
  tool : GeometryTool
  fillColor : String
  fillOpacity : ℚ
  outlineColor : String
  outlineWidth : ℚ
  text : TextSettings
  labels : LabelSettings
deriving DecidableEq, Repr

/-! ## The external collaborators, as an oracle record -/

/-- The external capabilities the embedded code calls out to.  Each field
corresponds to one out-of-repository call site:

* `geodesicLength`, `geodesicArea`, `planarArea`, `distance`, `intersects`:
  `@arcgis/core/geometry/geometryEngine` (a `none` result models
  `null`/`undefined`).
* `toScreen`, `toMap`: the view's projector (`none` models an unavailable or
  throwing conversion).
* `centroid`, `extentCenter`: the ArcGIS `geometry.centroid` and
  `geometry.extent?.center` accessors (`none` models a missing value).
* `atan2deg v dy dx`: `Math.atan2(dy, dx) * 180 / Math.PI`.
* `cosDeg a` / `sinDeg a`: `Math.cos(a * Math.PI / 180)` /
  `Math.sin(a * Math.PI / 180)` (the code always passes a degree value).
* `toFixed`: `Number.prototype.toFixed`.
* `gen n`: the n-th string produced by the template
  `g-${Date.now()}-${Math.random().toString(36).slice(2, 8)}`. -/
structure Engine where
  geodesicLength : LinearUnit → Geom → Option JSNum
  geodesicArea : AreaUnit → Geom → Option JSNum
  planarArea : AreaUnit → Geom → Option JSNum
  distance : LinearUnit → Pt → Pt → Option JSNum
  intersects : Geom → Geom → Bool
  toScreen : Pt → Option Pt
  toMap : Pt → Option Pt
  centroid : Geom → Option Pt
  extentCenter : Geom → Option Pt
  atan2deg : ℚ → ℚ → ℚ
  cosDeg : ℚ → ℚ
  sinDeg : ℚ → ℚ
  toFixed : JSNum → Nat → String
  gen : Nat → String

/-- JS `Math.round` (round half toward +∞) on an exact rational. -/
def jsRound (q : ℚ) : ℤ := ⌊q + 1 / 2⌋

/-! ## ExportService (services/export.service.ts) -/

/-- The argument of `ExportService.importEsriJson`, after JSON decoding:
either not a (non-null) object, or an object whose `version` field may be a
number (`none` models an absent/null field) and whose `draw`/`labels`/`text`
fields each either are an array of raw graphic JSON objects (`some`) or fail
`Array.isArray` (`none`).  `J` is the type of raw graphic JSON. -/
inductive ImportPayload (J : Type) where
  | notObject
  | obj (version : Option ℤ) (draw labels text : Option (List J))
deriving DecidableEq

/-- The record returned by `importEsriJson`; `G` is the type of reconstructed
`Graphic`s. -/
structure ImportResult (G : Type) where
  draw : List G
  labels : List G
  text : List G
deriving DecidableEq, Repr

/-- `ExportService.importEsriJson`, parameterized by the external
`Graphic.fromJSON`.  A thrown `Error` is an `Except.error` carrying the
message. -/
def importEsriJson {J G : Type} (fromJSON : J → G) :
    ImportPayload J → Except String (ImportResult G)
  | .notObject => .ok ⟨[], [], []⟩
  | .obj version draw labels text =>
    let v := version.getD 1
    if v = 1 then
      .ok ⟨(draw.getD []).map fromJSON, (labels.getD []).map fromJSON, []⟩
    else if v ≠ 2 then
      .error ("Unsupported export version: " ++ toString v)
    else
      .ok ⟨(draw.getD []).map fromJSON, (labels.getD []).map fromJSON,
           (text.getD []).map fromJSON⟩

/-! ## MeasurementService (services/measurement.service.ts) -/

/-- `MeasurementService.geodesicLength`: engine result with `?? 0`
(the nullish fallback — it does not inspect finiteness). -/
def mGeodesicLength (E : Engine) (cfg : MeasCfg) (geom : Geom) : JSNum :=
  (E.geodesicLength cfg.lengthUnit geom).getD (.num 0)

/-- `MeasurementService.geodesicPerimeter`: rebuild the rings as a polyline
and measure its length. -/
def mGeodesicPerimeter (E : Engine) (cfg : MeasCfg) (rings : List (List Pt)) : JSNum :=
  mGeodesicLength E cfg (.polyline rings)

/-- `MeasurementService.geodesicArea`: planar fallback when the geodesic
result is non-finite or exactly zero (or absent). -/
def mGeodesicArea (E : Engine) (cfg : MeasCfg) (geom : Geom) : JSNum :=
  match E.geodesicArea cfg.areaUnit geom with
  | some v =>
    if !v.isFinite || v.eqZero then (E.planarArea cfg.areaUnit geom).getD (.num 0)
    else v
  | none => (E.planarArea cfg.areaUnit geom).getD (.num 0)

/-- `MeasurementService.radiusFromPolygon`: centroid to first vertex of
ring 0, else 0. -/
def radiusFromPolygon (E : Engine) (cfg : MeasCfg) (geom : Geom) : JSNum :=
  match geom with
  | .polygon rings =>
    match E.centroid geom, rings.head? with
    | some center, some ring0 =>
      match ring0.head? with
      | some first => (E.distance cfg.lengthUnit center first).getD (.num 0)
      | none => .num 0
    | _, _ => .num 0
  | _ => .num 0

/-- `MeasurementService.formatLength`: metric unit switch at 1000, otherwise
fixed decimals with the unit suffix. -/
def formatLength (E : Engine) (cfg : MeasCfg) (val : JSNum) : String :=
  if cfg.lengthUnit = .meters then
    if val.absGe 1000 then E.toFixed (val.divPos 1000) cfg.decimals ++ " km"
    else E.toFixed val cfg.decimals ++ " m"
  else E.toFixed val cfg.decimals ++ " " ++ cfg.lengthUnit.str

/-- `MeasurementService.formatArea`: metric unit switch at 1,000,000. -/
def formatArea (E : Engine) (cfg : MeasCfg) (val : JSNum) : String :=
  if cfg.areaUnit = .squareMeters then
    if val.absGe 1000000 then E.toFixed (val.divPos 1000000) cfg.decimals ++ " km²"
    else E.toFixed val cfg.decimals ++ " m²"
  else E.toFixed val cfg.decimals ++ " " ++ cfg.areaUnit.str

/-- Consecutive vertex pairs of one path/ring (the `for i < length - 1`
loops). -/
def consecPairs (l : List Pt) : List (Pt × Pt) := l.zip l.tail

/-- `MeasurementService.getSegments`: per-edge endpoint pairs over every
path/ring (a `Point` matches neither branch's data and yields nothing). -/
def getSegments (geom : Geom) : List (Pt × Pt) :=
  match geom with
  | .polyline paths => paths.flatMap consecPairs
  | .polygon rings => rings.flatMap consecPairs
  | .point _ => []

/-- `MeasurementService.segmentLengths`: geodesic length of each single-edge
polyline. -/
def segmentLengths (E : Engine) (cfg : MeasCfg) (geom : Geom) : List JSNum :=
  match geom with
  | .polyline paths =>
    paths.flatMap fun path =>
      (consecPairs path).map fun s => mGeodesicLength E cfg (.polyline [[s.1, s.2]])
  | .polygon rings =>
    rings.flatMap fun ring =>
      (consecPairs ring).map fun s => mGeodesicLength E cfg (.polyline [[s.1, s.2]])
  | .point _ => []

/-- `MeasurementService.getSegmentMidpoint`. -/
def getSegmentMidpoint (seg : Pt × Pt) : Pt :=
  ⟨(seg.1.x + seg.2.x) / 2, (seg.1.y + seg.2.y) / 2⟩

/-- `MeasurementService.getSegmentAngle`: `atan2(dy, dx)` in degrees
(the transcendental part is the engine's `atan2deg`). -/
def getSegmentAngle (E : Engine) (seg : Pt × Pt) : ℚ :=
  E.atan2deg (seg.2.y - seg.1.y) (seg.2.x - seg.1.x)

/-- `MeasurementService.centroidLabelPoint`: polygon centroid, otherwise
extent center when an extent exists, else centroid. -/
def centroidLabelPoint (E : Engine) (geom : Geom) : Option Pt :=
  match geom with
  | .polygon _ => E.centroid geom
  | _ =>
    match E.extentCenter geom with
    | some c => some c
    | none => E.centroid geom

/-! ## SketchService data model

Graphics are heap objects referenced by `Nat` handles; render collections
(`drawLayer`, `labelLayer`, `textLayer`, the transient `selectionLayer`) are
ordered lists of handles.  A `Graphic` keeps the fields the core reads or
writes: geometry, the `__sid` expando, the `tool`/`title` attributes, and —
for text/label graphics — the symbol's text and angle. -/

/-- A `Graphic` as the core sees it. -/
structure Graphic where
  geometry : Option Geom := none
  sid : Option String := none
  tool : Option GeometryTool := none
  title : Option String := none
  text : Option String := none
  angle : ℚ := 0
deriving DecidableEq, Repr, Inhabited

/-- A measurement row (`{ label, value }`). -/
structure MeasurementRow where
  label : String
  value : String
deriving DecidableEq, Repr

/-- A published `SelectionMeasurement` (models/selection-measurements.ts). -/
structure SelectionMeasurement where
  id : String
  geometryType : String
  tool : Option GeometryTool
  rows : List MeasurementRow
deriving DecidableEq, Repr

/-- Which layer the `SketchViewModel` currently targets. -/
inductive SvmLayer where
  | draw
  | selection
deriving DecidableEq, Repr

/-- A creation/update event phase (`evt.state`). -/
inductive Phase where
  | active
  | complete
  | cancel
deriving DecidableEq, Repr

/-- The mutable fields of `SketchService`.  `heap` stores every allocated
graphic; `nextRef` is the allocator frontier; `genPos` indexes the external
id-string source (`Engine.gen`); `pubSelectedIds` / `pubMeasurements` hold the
most recently published values of the two subjects. -/
structure SketchState where
  heap : Nat → Graphic
  nextRef : Nat
  drawLayer : List Nat
  labelLayer : List Nat
  textLayer : List Nat
  selectionLayer : Option (List Nat)
  selectionMap : List (Nat × Nat)
  svmLayer : SvmLayer
  labelIndex : List (String × List Nat)
  tempLabels : List Nat
  selectionMode : Bool
  isEditing : Bool
  currentSettings : Option DrawSettings
  genPos : Nat
  pubSelectedIds : List String
  pubMeasurements : List SelectionMeasurement

/-- Write one heap cell. -/
def SketchState.setGraphic (s : SketchState) (r : Nat) (g : Graphic) : SketchState :=
  { s with heap := fun x => if x = r then g else s.heap x }

/-- `new Graphic(...)`: allocate a fresh heap cell. -/
def SketchState.alloc (s : SketchState) (g : Graphic) : Nat × SketchState :=
  (s.nextRef, { s with heap := fun x => if x = s.nextRef then g else s.heap x,
                       nextRef := s.nextRef + 1 })

/-- JS `Map.prototype.get` on an association list (first matching key). -/
def assocGet (m : List (Nat × Nat)) (k : Nat) : Option Nat :=
  (m.find? fun p => p.1 = k).map (·.2)

/-- JS `Map.prototype.set`: replace in place, else append. -/
def assocSet (m : List (Nat × Nat)) (k v : Nat) : List (Nat × Nat) :=
  if m.any (fun p => p.1 = k) then m.map (fun p => if p.1 = k then (k, v) else p)
  else m ++ [(k, v)]

/-- `labelIndex.get` (string-keyed JS `Map`). -/
def idxGet (m : List (String × List Nat)) (k : String) : Option (List Nat) :=
  (m.find? fun p => p.1 = k).map (·.2)

/-- `labelIndex.set`. -/
def idxSet (m : List (String × List Nat)) (k : String) (v : List Nat) :
    List (String × List Nat) :=
  if m.any (fun p => p.1 = k) then m.map (fun p => if p.1 = k then (k, v) else p)
  else m ++ [(k, v)]

/-- `labelIndex.delete`. -/
def idxErase (m : List (String × List Nat)) (k : String) : List (String × List Nat) :=
  m.filter fun p => p.1 ≠ k

/-! ## SketchService helpers -/

/-- `SketchService.getGraphicId`: return the attached `__sid`, or draw the
next external id string, attach it and return it. -/
def getGraphicId (E : Engine) (r : Nat) (s : SketchState) : String × SketchState :=
  match (s.heap r).sid with
  | some id => (id, s)
  | none =>
    let id := E.gen s.genPos
    (id, { (s.setGraphic r { s.heap r with sid := some id }) with genPos := s.genPos + 1 })

/-- `getGraphicId` mapped across a list of graphics (the
`evt.graphics.map(g => this.getGraphicId(g))` pattern). -/
def mapGetGraphicIds (E : Engine) : List Nat → SketchState → List String × SketchState
  | [], s => ([], s)
  | r :: rs, s =>
    let p := getGraphicId E r s
    let q := mapGetGraphicIds E rs p.2
    (p.1 :: q.1, q.2)

/-- `SketchService.removePersistedLabelsFor`: read the raw `__sid` (no
minting); remove that id's indexed labels from the label layer and drop the
index entry. -/
def removePersistedLabelsFor (r : Nat) (s : SketchState) : SketchState :=
  match (s.heap r).sid with
  | none => s
  | some id =>
    let s1 :=
      match idxGet s.labelIndex id with
      | some arr =>
        if arr.isEmpty then s
        else { s with labelLayer := s.labelLayer.filter (· ∉ arr) }
      | none => s
    { s1 with labelIndex := idxErase s1.labelIndex id }

/-- `SketchService.clearTempLabels`. -/
def clearTempLabels (s : SketchState) : SketchState :=
  if s.tempLabels.isEmpty then s
  else { s with labelLayer := s.labelLayer.filter (· ∉ s.tempLabels),
                tempLabels := [] }

/-- `SketchService.offsetPoint`: project to screen, offset by pixels, project
back; degrade to the unmodified point when either projection is unavailable. -/
def offsetPoint (E : Engine) (p : Pt) (dxPx dyPx : ℚ) : Pt :=
  match E.toScreen p with
  | none => p
  | some scr => (E.toMap ⟨scr.x + dxPx, scr.y + dyPx⟩).getD p

/-- `SketchService.cloneGraphic`: copy geometry, symbol and attributes — the
`__sid` expando is not part of any of those, so a clone starts without an id. -/
def cloneGraphic (g : Graphic) : Graphic :=
  { geometry := g.geometry, sid := none, tool := g.tool, title := g.title,
    text := g.text, angle := g.angle }

/-! ## Label placement (SketchService.makeLabelsForGeometry and helpers) -/

/-- The `addText` closure of `makeLabelsForGeometry`: a centered text graphic
at `p` with the given rotation (symbol styling carries no claim content and is
not tracked). -/
def mkTextGraphic (p : Pt) (t : String) (angle : ℚ) : Graphic :=
  { geometry := some (.point p), text := some t, angle := angle }

/-- The bearing normalization applied to each segment label: bring the
atan2 degrees into [-90, 90] by shifting 180. -/
def normalizeLabelAngle (a : ℚ) : ℚ :=
  if a > 90 then a - 180
  else if a < -90 then a + 180
  else a

/-- The per-segment labelling loop shared by the polyline and polygon
branches of `makeLabelsForGeometry`: for each edge (up to the common length
of `getSegments` and `segmentLengths`), place the formatted edge length at
the midpoint, offset 10 px perpendicular to the normalized bearing and
rotated to it. -/
def segmentLabelsFor (E : Engine) (cfg : MeasCfg) (geom : Geom) : List Graphic :=
  ((getSegments geom).zip (segmentLengths E cfg geom)).map fun sl =>
    let midpoint := getSegmentMidpoint sl.1
    let angle := normalizeLabelAngle (getSegmentAngle E sl.1)
    let dxPx := 10 * E.cosDeg (angle + 90)
    let dyPx := 10 * E.sinDeg (angle + 90)
    mkTextGraphic (offsetPoint E midpoint dxPx dyPx) (formatLength E cfg sl.2) angle

/-- `settings.text.content || 'Feature'`. -/
def titleOf (settings : DrawSettings) : String :=
  if settings.text.content = "" then "Feature" else settings.text.content

/-- The center-block lines for a polyline: optional title, optional
`L = ...` total. -/
def polylineCenterLines (E : Engine) (cfg : MeasCfg) (settings : DrawSettings)
    (geom : Geom) : List String :=
  (if settings.labels.showTitle then [titleOf settings] else []) ++
  (if settings.labels.showTotals then
    ["L = " ++ formatLength E cfg (mGeodesicLength E cfg geom)] else [])

/-- The center-block lines for a polygon: optional title, optional
`A = ...` / `P = ...` totals, optional `R = ...` radius.  The radius line is
guarded only by `showCircleRadius` — the source consults no tool tag here. -/
def polygonCenterLines (E : Engine) (cfg : MeasCfg) (settings : DrawSettings)
    (rings : List (List Pt)) : List String :=
  (if settings.labels.showTitle then [titleOf settings] else []) ++
  (if settings.labels.showTotals then
    ["A = " ++ formatArea E cfg (mGeodesicArea E cfg (.polygon rings)),
     "P = " ++ formatLength E cfg (mGeodesicPerimeter E cfg rings)] else []) ++
  (if settings.labels.showCircleRadius then
    ["R = " ++ formatLength E cfg (radiusFromPolygon E cfg (.polygon rings))] else [])

/-- The vertical stacking loop of the center block: line `i` of `n` is offset
by `(i - (n - 1)) * round(fontSize * 1.2)` pixels so the first line sits
highest. -/
def stackCenterLines (E : Engine) (settings : DrawSettings) (center : Pt)
    (lines : List String) : List Graphic :=
  let lineHeight : ℤ := jsRound (settings.text.fontSize * 1.2)
  (List.range lines.length).zip lines |>.map fun il =>
    let dy : ℤ := ((il.1 : ℤ) - ((lines.length : ℤ) - 1)) * lineHeight
    mkTextGraphic (offsetPoint E center 0 (dy : ℚ)) il.2 0

/-- `centroidLabelPoint(geom) || extent?.center` — the center-block anchor. -/
def centerAnchor (E : Engine) (geom : Geom) : Option Pt :=
  match centroidLabelPoint E geom with
  | some c => some c
  | none => E.extentCenter geom

/-- `SketchService.makeLabelsForGeometry`: segment labels (if enabled)
followed by the stacked center block.  Points produce nothing here. -/
def makeLabelsForGeometry (E : Engine) (cfg : MeasCfg) (settings : DrawSettings)
    (geom : Geom) : List Graphic :=
  match geom with
  | .polyline _ =>
    (if settings.labels.showSegmentLengths then segmentLabelsFor E cfg geom else []) ++
    (if settings.labels.showTitle || settings.labels.showTotals then
      match centerAnchor E geom with
      | some center => stackCenterLines E settings center (polylineCenterLines E cfg settings geom)
      | none => []
    else [])
  | .polygon rings =>
    (if settings.labels.showSegmentLengths then segmentLabelsFor E cfg geom else []) ++
    (match centerAnchor E geom with
     | some center => stackCenterLines E settings center (polygonCenterLines E cfg settings rings)
     | none => [])
  | .point _ => []

/-- The `sep` computation of `SketchService.placeTitleLabel`: vertical
separation of the standalone title above the measurement block. -/
def titleSep (settings : DrawSettings) (geom : Geom) : ℤ :=
  let spacing : ℤ := jsRound (settings.text.fontSize * 1)
  match geom with
  | .polyline _ => if settings.labels.showTotals then spacing else 0
  | .polygon _ =>
    let measurementLines : ℕ :=
      (if settings.labels.showTotals then 2 else 0) +
      (if settings.labels.showCircleRadius then 1 else 0)
    if measurementLines > 0 then
      jsRound ((((measurementLines : ℚ) + 1) / 2) * (spacing : ℚ))
    else 0
  | .point _ => 0

/-- `SketchService.placeTitleLabel`: anchor at the point itself / centroid /
extent center (else produce nothing), lift by `titleSep`, allocate the title
graphic and add it to the label layer. -/
def placeTitleLabel (E : Engine) (settings : DrawSettings) (geom : Geom)
    (s : SketchState) : Option Nat × SketchState :=
  let basePt : Option Pt :=
    match geom with
    | .point p => some p
    | _ =>
      match centroidLabelPoint E geom with
      | some c => some c
      | none => E.extentCenter geom
  match basePt with
  | none => (none, s)
  | some bp =>
    let sep := titleSep settings geom
    let finalPt := if sep ≠ 0 then offsetPoint E bp 0 (-(sep : ℚ)) else bp
    let p := s.alloc (mkTextGraphic finalPt (titleOf settings) 0)
    (some p.1, { p.2 with labelLayer := p.2.labelLayer ++ [p.1] })

/-! ## Measurement publication (SketchService) -/

/-- `SketchService.buildMeasurementsForGraphics`: per graphic, resolve the
source through the selection map (falling back to the graphic itself), skip
missing geometry, and emit rows keyed by the source's identifier; the
`Radius` row only for polygons whose source tool tag is `circle`. -/
def buildMeasurementsForGraphics (E : Engine) (cfg : MeasCfg) :
    List Nat → SketchState → List SelectionMeasurement × SketchState
  | [], s => ([], s)
  | g :: gs, s =>
    let src := (assocGet s.selectionMap g).getD g
    match (s.heap g).geometry with
    | some (.polyline paths) =>
      let p := getGraphicId E src s
      let tool := (p.2.heap src).tool
      let total := mGeodesicLength E cfg (.polyline paths)
      let segs := segmentLengths E cfg (.polyline paths)
      let entry : SelectionMeasurement :=
        { id := p.1, geometryType := "polyline", tool := tool,
          rows := [⟨"Total length", formatLength E cfg total⟩,
                   ⟨"Segments", toString segs.length⟩] }
      let q := buildMeasurementsForGraphics E cfg gs p.2
      (entry :: q.1, q.2)
    | some (.polygon rings) =>
      let p := getGraphicId E src s
      let tool := (p.2.heap src).tool
      let area := mGeodesicArea E cfg (.polygon rings)
      let per := mGeodesicPerimeter E cfg rings
      let baseRows : List MeasurementRow :=
        [⟨"Area", formatArea E cfg area⟩, ⟨"Perimeter", formatLength E cfg per⟩]
      let rows :=
        if tool = some .circle then
          baseRows ++ [⟨"Radius", formatLength E cfg (radiusFromPolygon E cfg (.polygon rings))⟩]
        else baseRows
      let entry : SelectionMeasurement :=
        { id := p.1, geometryType := "polygon", tool := tool, rows := rows }
      let q := buildMeasurementsForGraphics E cfg gs p.2
      (entry :: q.1, q.2)
    | _ => buildMeasurementsForGraphics E cfg gs s

/-- `SketchService.publishMeasurementsFromGraphics`: publish `[]` without
settings, else publish the built rows. -/
def publishMeasurementsFromGraphics (E : Engine) (cfg : MeasCfg) (gs : List Nat)
    (s : SketchState) : SketchState :=
  match s.currentSettings with
  | none => { s with pubMeasurements := [] }
  | some _ =>
    let p := buildMeasurementsForGraphics E cfg gs s
    { p.2 with pubMeasurements := p.1 }

/-! ## Selection/Join management (SketchService) -/

/-- `SketchService.prepareSelectionLayer`: create the transient layer on
demand; when `clear` is set, empty it and clear the clone map. -/
def prepareSelectionLayer (clear : Bool) (s : SketchState) : SketchState :=
  let s1 := if s.selectionLayer.isNone then { s with selectionLayer := some [] } else s
  if clear then { s1 with selectionLayer := some [], selectionMap := [] } else s1

/-- `SketchService.endSelectionEdit`: discard the working collection (when
`clearLayer`), clear the clone map, publish empty measurements and selection,
and restore the primary draw collection as the render target. -/
def endSelectionEdit (clearLayer : Bool) (s : SketchState) : SketchState :=
  let s1 :=
    if s.selectionLayer.isSome && clearLayer then { s with selectionLayer := some [] } else s
  { s1 with selectionMap := [], pubMeasurements := [], svmLayer := .draw,
            pubSelectedIds := [] }

/-- The cloning loop of the marquee-complete branch (and of
`selectGraphics`): clone each selected source into the working collection and
record clone → source. -/
def cloneSelected : List Nat → SketchState → SketchState
  | [], s => s
  | src :: rest, s =>
    let p := s.alloc (cloneGraphic (s.heap src))
    cloneSelected rest
      { p.2 with selectionLayer := some ((p.2.selectionLayer.getD []) ++ [p.1]),
                 selectionMap := assocSet p.2.selectionMap p.1 src }

/-- The geometry copy-back loop of the update-complete branch during a
selection session: for each edited clone with a map entry, overwrite the
source's geometry with (a copy of) the clone's geometry; clones without an
entry are skipped. -/
def commitClones : List Nat → SketchState → SketchState
  | [], s => s
  | g :: rest, s =>
    match assocGet s.selectionMap g with
    | none => commitClones rest s
    | some src =>
      commitClones rest (s.setGraphic src { s.heap src with geometry := (s.heap g).geometry })

/-! ## Event handlers (SketchService.initialize: svm.on handlers) -/

/-- Allocate label graphics and append them to the label layer, in order
(the `labels.forEach(lg => { labelLayer.add(lg); ... })` loops); returns the
allocated handles. -/
def addLabels : List Graphic → SketchState → List Nat × SketchState
  | [], s => ([], s)
  | g :: gs, s =>
    let p := s.alloc g
    let s2 := { p.2 with labelLayer := p.2.labelLayer ++ [p.1] }
    let q := addLabels gs s2
    (p.1 :: q.1, q.2)

/-- The per-target temp-label regeneration of the update-active branch. -/
def addUpdateTempLabels (E : Engine) (cfg : MeasCfg) (settings : DrawSettings) :
    List Nat → SketchState → SketchState
  | [], s => s
  | g :: rest, s =>
    match (s.heap g).geometry with
    | none => addUpdateTempLabels E cfg settings rest s
    | some geom =>
      let p := addLabels (makeLabelsForGeometry E cfg settings geom) s
      addUpdateTempLabels E cfg settings rest
        { p.2 with tempLabels := p.2.tempLabels ++ p.1 }

/-- The shared "persist fresh labels for one finished/edited graphic" step of
the create-complete and (direct) update-complete branches: assign/reuse the
id, drop prior persisted labels, generate and add the label set plus the
optional standalone title, and record them in the label index. -/
def persistLabelsFor (E : Engine) (cfg : MeasCfg) (settings : DrawSettings)
    (r : Nat) (geom : Geom) (s : SketchState) : SketchState :=
  let pid := getGraphicId E r s
  let s2 := removePersistedLabelsFor r pid.2
  let pl := addLabels (makeLabelsForGeometry E cfg settings geom) s2
  let pt :=
    if settings.labels.showTitle then
      let q := placeTitleLabel E settings geom pl.2
      (match q.1 with
       | some t => pl.1 ++ [t]
       | none => pl.1, q.2)
    else (pl.1, pl.2)
  { pt.2 with labelIndex := idxSet pt.2.labelIndex pid.1 pt.1 }

/-- The `svm.on('create')` handler.  `gOpt` is `evt.graphic`.  Without
session settings the event is ignored.  In selection mode the completed
marquee is discarded, intersecting shapes from the draw and text collections
are cloned into the working collection, update mode begins over the clones
and the sources' identifiers are published; the `finally` block always leaves
selection mode and clears temp labels.  Otherwise the three phases do live
temp labels / finalization / cleanup. -/
def handleCreate (E : Engine) (cfg : MeasCfg) (phase : Phase) (gOpt : Option Nat)
    (s : SketchState) : SketchState :=
  match s.currentSettings with
  | none => s
  | some settings =>
    let geom : Option Geom := gOpt.bind fun r => (s.heap r).geometry
    if s.selectionMode then
      match phase with
      | .active => s
      | .complete =>
        match gOpt, geom with
        | some marquee, some mg =>
          let s1 := { s with drawLayer := s.drawLayer.filter (· ≠ marquee) }
          let selected :=
            (s1.drawLayer.filter fun r =>
              match (s1.heap r).geometry with
              | some gg => E.intersects gg mg
              | none => false) ++
            (s1.textLayer.filter fun r =>
              match (s1.heap r).geometry with
              | some gg => E.intersects gg mg
              | none => false)
          let s2 :=
            if selected.isEmpty then s1
            else
              let sA := cloneSelected selected (prepareSelectionLayer true s1)
              let sB := { sA with svmLayer := .selection }
              let toEdit := sB.selectionLayer.getD []
              let sC := publishMeasurementsFromGraphics E cfg toEdit sB
              let pids :=
                mapGetGraphicIds E (toEdit.filterMap fun c => assocGet sC.selectionMap c) sC
              { pids.2 with pubSelectedIds := pids.1 }
          clearTempLabels { s2 with selectionMode := false }
        | _, _ => s
      | .cancel =>
        { clearTempLabels { s with selectionMode := false } with pubSelectedIds := [] }
    else
      match phase with
      | .active =>
        match geom with
        | some gg =>
          let s1 := clearTempLabels { s with isEditing := true }
          if settings.labels.showDuringDraw then
            let p := addLabels (makeLabelsForGeometry E cfg settings gg) s1
            { p.2 with tempLabels := p.1 }
          else s1
        | none => s
      | .complete =>
        match gOpt, geom with
        | some gr, some gg =>
          let s1 := clearTempLabels { s with isEditing := false }
          let s2 := s1.setGraphic gr { s1.heap gr with tool := some settings.tool }
          persistLabelsFor E cfg settings gr gg s2
        | _, _ => s
      | .cancel => clearTempLabels { s with isEditing := false }

/-- The direct (non-selection) part of the update-complete branch: refresh
each target's persisted labels. -/
def regenLabelsFor (E : Engine) (cfg : MeasCfg) (settings : DrawSettings) :
    List Nat → SketchState → SketchState
  | [], s => s
  | g :: rest, s =>
    match (s.heap g).geometry with
    | none => regenLabelsFor E cfg settings rest s
    | some geom => regenLabelsFor E cfg settings rest (persistLabelsFor E cfg settings g geom s)

/-- The `svm.on('update')` handler.  `gs` is `evt.graphics`.  *active*: live
temp labels, measurement publication, and the published selected-id set taken
from `evt.graphics` themselves.  *complete* during a selection session:
publish final measurements, copy clone geometry back to sources, tear the
session down; otherwise refresh each target's persisted labels and publish an
empty selection.  *cancel*: clear temp labels and the published selection. -/
def handleUpdate (E : Engine) (cfg : MeasCfg) (phase : Phase) (gs : List Nat)
    (s : SketchState) : SketchState :=
  match s.currentSettings with
  | none => s
  | some settings =>
    match phase with
    | .active =>
      let s1 := clearTempLabels { s with isEditing := true }
      let s2 :=
        if settings.labels.showDuringDraw then addUpdateTempLabels E cfg settings gs s1
        else s1
      let s3 := publishMeasurementsFromGraphics E cfg gs s2
      let pids := mapGetGraphicIds E gs s3
      { pids.2 with pubSelectedIds := pids.1 }
    | .complete =>
      let s0 := { s with isEditing := false }
      if s0.selectionLayer.isSome && s0.svmLayer = .selection then
        let s1 := publishMeasurementsFromGraphics E cfg gs s0
        endSelectionEdit true (commitClones gs s1)
      else
        let s1 := clearTempLabels s0
        { regenLabelsFor E cfg settings gs s1 with pubSelectedIds := [] }
    | .cancel =>
      { clearTempLabels { s with isEditing := false } with pubSelectedIds := [] }

/-! ## Concrete fixtures for witnesses and counterexamples -/

/-- A deliberately boring engine used as the base of concrete test fixtures;
individual fields are overridden per scenario. -/
def baseEngine : Engine where
  geodesicLength := fun _ _ => some (.num 0)
  geodesicArea := fun _ _ => some (.num 0)
  planarArea := fun _ _ => some (.num 0)
  distance := fun _ _ _ => some (.num 0)
  intersects := fun _ _ => false
  toScreen := fun _ => none
  toMap := fun _ => none
  centroid := fun _ => none
  extentCenter := fun _ => none
  atan2deg := fun _ _ => 0
  cosDeg := fun _ => 0
  sinDeg := fun _ => 0
  toFixed := fun _ _ => "0.00"
  gen := fun n => "g-" ++ toString n

/-- A concrete settings fixture (overridden per scenario). -/
def baseSettings : DrawSettings where
  tool := .polygon
  fillColor := "#0078ff"
  fillOpacity := 1
  outlineColor := "#0078ff"
  outlineWidth := 2
  text := { content := "", fontFamily := "Arial", fontSize := 12,
            color := "#000000", haloColor := "#ffffff", haloSize := 1 }
  labels := { showDuringDraw := false, showSegmentLengths := false,
              showTotals := false, showCircleRadius := false, showTitle := false }

/-- An empty sketch state fixture with a given heap and layers. -/
def baseState : SketchState where
  heap := fun _ => {}
  nextRef := 0
  drawLayer := []
  labelLayer := []
  textLayer := []
  selectionLayer := none
  selectionMap := []
  svmLayer := .draw
  labelIndex := []
  tempLabels := []
  selectionMode := false
  isEditing := false
  currentSettings := some baseSettings
  genPos := 0
  pubSelectedIds := []
  pubMeasurements := []

/-! ## C1 / C10: import version dispatch -/

/-- C1: `importEsriJson` returns all three parsed collections for a version-2
object payload, returns the parsed draw and labels with an empty text
collection for version 1, and fails with the explicit unsupported-version
error (importing nothing) for every other numeric version. -/
theorem import_version_dispatch {J G : Type} (fromJSON : J → G)
    (draw labels text : Option (List J)) (v : ℤ) :
    importEsriJson fromJSON (.obj (some 2) draw labels text) =
      .ok ⟨(draw.getD []).map fromJSON, (labels.getD []).map fromJSON,
           (text.getD []).map fromJSON⟩
    ∧ importEsriJson fromJSON (.obj (some 1) draw labels text) =
      .ok ⟨(draw.getD []).map fromJSON, (labels.getD []).map fromJSON, []⟩
    ∧ (v ≠ 1 → v ≠ 2 →
        importEsriJson fromJSON (.obj (some v) draw labels text) =
          .error ("Unsupported export version: " ++ toString v)) := by
  refine ⟨by simp [importEsriJson], by simp [importEsriJson], fun h1 h2 => ?_⟩
  simp [importEsriJson, h1, h2]

/-- Witness for C1 at version 3 with concrete collections. -/
theorem import_version_dispatch_witness :
    importEsriJson (fun n : ℕ => n + 1) (.obj (some 3) (some [1, 2]) none (some [5])) =
      .error ("Unsupported export version: " ++ toString (3 : ℤ)) :=
  (import_version_dispatch (fun n : ℕ => n + 1) (some [1, 2]) none (some [5]) 3).2.2
    (by decide) (by decide)

/-- C10: an object payload with no version field is treated as legacy
version 1: parsed draw and labels, empty text, no error. -/
theorem import_defaults_to_v1 {J G : Type} (fromJSON : J → G)
    (draw labels text : Option (List J)) :
    importEsriJson fromJSON (.obj none draw labels text) =
      .ok ⟨(draw.getD []).map fromJSON, (labels.getD []).map fromJSON, []⟩ := by
  simp [importEsriJson]

/-! ## C5: polyline length and non-finite engine results -/

/-- C5 counterexample: the claim says a non-finite engine result yields
exactly 0, but `geodesicLength` only applies the nullish `?? 0` fallback — a
`NaN` engine result propagates to the caller unchanged. -/
theorem length_nonfinite_cex :
    mGeodesicLength { baseEngine with geodesicLength := fun _ _ => some .nan } {}
        (.polyline [[⟨0, 0⟩, ⟨1, 0⟩]]) = .nan
    ∧ JSNum.nan ≠ JSNum.num 0
    ∧ JSNum.isFinite .nan = false := by
  refine ⟨rfl, by decide, rfl⟩

/-- C5 amended: `length(line)` falls back to 0 only when the engine returns
no value (null/undefined); any numeric engine result — finite or not — is
returned unchanged. -/
theorem length_engine_fallback (E : Engine) (cfg : MeasCfg) (geom : Geom) :
    (E.geodesicLength cfg.lengthUnit geom = none → mGeodesicLength E cfg geom = .num 0)
    ∧ ∀ v, E.geodesicLength cfg.lengthUnit geom = some v → mGeodesicLength E cfg geom = v := by
  constructor
  · intro h
    simp [mGeodesicLength, h]
  · intro v h
    simp [mGeodesicLength, h]

/-- Witness for the amended C5 at both a missing and a present engine
result. -/
theorem length_engine_fallback_witness :
    mGeodesicLength { baseEngine with geodesicLength := fun _ _ => none } {}
        (.point ⟨0, 0⟩) = .num 0
    ∧ mGeodesicLength { baseEngine with geodesicLength := fun _ _ => some (.num 5) } {}
        (.point ⟨0, 0⟩) = .num 5 :=
  ⟨(length_engine_fallback _ _ _).1 rfl, (length_engine_fallback _ _ _).2 _ rfl⟩

/-! ## C8: segment label bearing normalization -/

/-- C8: every segment label carries the edge's atan2 bearing run through the
±180° normalization; the normalization maps any bearing in atan2's range
(-180°, 180°] into [-90°, 90°]; and 170° normalizes to -10°. -/
theorem segment_angle_normalized :
    (∀ (E : Engine) (cfg : MeasCfg) (geom : Geom) (g : Graphic),
        g ∈ segmentLabelsFor E cfg geom →
        ∃ seg, seg ∈ getSegments geom ∧
          g.angle = normalizeLabelAngle (getSegmentAngle E seg))
    ∧ (∀ a : ℚ, -180 < a → a ≤ 180 →
        -90 ≤ normalizeLabelAngle a ∧ normalizeLabelAngle a ≤ 90)
    ∧ normalizeLabelAngle 170 = -10 := by
  refine ⟨?_, ?_, by norm_num [normalizeLabelAngle]⟩
  · intro E cfg geom g hg
    simp only [segmentLabelsFor, List.mem_map] at hg
    obtain ⟨sl, hsl, rfl⟩ := hg
    exact ⟨sl.1, (List.of_mem_zip hsl).1, rfl⟩
  · intro a h1 h2
    unfold normalizeLabelAngle
    split
    · constructor <;> linarith
    · split
      · constructor <;> linarith
      · constructor <;> linarith

/-- An engine whose bearing oracle always reports 170°. -/
def bearing170Engine : Engine := { baseEngine with atan2deg := fun _ _ => 170 }

/-- A one-edge polyline fixture. -/
def oneEdgeLine : Geom := .polyline [[⟨0, 0⟩, ⟨1, 0⟩]]

/-- Witness for C8: the 170° bearing instance, and a concrete polyline whose
single segment label stores the normalized bearing of one of its edges. -/
theorem segment_angle_normalized_witness :
    ((-90 : ℚ) ≤ normalizeLabelAngle 170 ∧ normalizeLabelAngle 170 ≤ 90)
    ∧ normalizeLabelAngle 170 = -10
    ∧ ∃ seg, seg ∈ getSegments oneEdgeLine ∧
        ((segmentLabelsFor bearing170Engine {} oneEdgeLine).headI).angle =
          normalizeLabelAngle (getSegmentAngle bearing170Engine seg) :=
  ⟨segment_angle_normalized.2.1 170 (by norm_num) (by norm_num),
   segment_angle_normalized.2.2,
   segment_angle_normalized.1 bearing170Engine {} oneEdgeLine _ (by
     simp [segmentLabelsFor, getSegments, consecPairs, oneEdgeLine, segmentLengths])⟩

/-! ## C9: standalone title separation -/

/-- Evaluate `jsRound` through the floor characterization. -/
theorem jsRound_val (q : ℚ) (z : ℤ) (h1 : (z : ℚ) ≤ q + 1 / 2) (h2 : q + 1 / 2 < z + 1) :
    jsRound q = z := by
  unfold jsRound
  rw [Int.floor_eq_iff]
  exact ⟨h1, h2⟩

/-- Modelled from the spec: the claimed title separation — "exactly one line
height" (the spec's line height is `round(fontSize * 1.2)`) for polylines
with totals shown, `round(((measurementLineCount + 1) / 2) * spacing)` with
`spacing = round(fontSize * 1.0)` for polygons, and zero for points.  Kept
separate from `titleSep` (which is translated from the source) so the two can
be compared. -/
def specTitleSeparation (settings : DrawSettings) (geom : Geom) : ℤ :=
  match geom with
  | .polyline _ =>
    if settings.labels.showTotals then jsRound (settings.text.fontSize * 1.2) else 0
  | .polygon _ =>
    let spacing : ℤ := jsRound (settings.text.fontSize * 1)
    let measurementLineCount : ℕ :=
      (if settings.labels.showTotals then 2 else 0) +
      (if settings.labels.showCircleRadius then 1 else 0)
    jsRound ((((measurementLineCount : ℚ) + 1) / 2) * (spacing : ℚ))
  | .point _ => 0

/-- Settings with totals shown (fontSize 12). -/
def totalsLineSettings : DrawSettings :=
  { baseSettings with labels := { baseSettings.labels with showTotals := true } }

/-- C9 counterexample: at fontSize 12, a polyline title with totals sits
`spacing = 12` above the block, not one `lineHeight = 14`; and a polygon with
no measurement lines gets separation 0, not the claimed
`round(((0 + 1) / 2) * 12) = 6`. -/
theorem title_separation_cex :
    (specTitleSeparation totalsLineSettings (.polyline [[⟨0, 0⟩, ⟨1, 0⟩]]) = 14
      ∧ titleSep totalsLineSettings (.polyline [[⟨0, 0⟩, ⟨1, 0⟩]]) = 12)
    ∧ (specTitleSeparation baseSettings (.polygon [[⟨0, 0⟩]]) = 6
      ∧ titleSep baseSettings (.polygon [[⟨0, 0⟩]]) = 0) := by
  have h12 : jsRound ((12 : ℚ) * 1) = 12 := jsRound_val _ _ (by norm_num) (by norm_num)
  have h14 : jsRound ((12 : ℚ) * 1.2) = 14 := jsRound_val _ _ (by norm_num) (by norm_num)
  refine ⟨⟨?_, ?_⟩, ?_, ?_⟩
  · simpa [specTitleSeparation, totalsLineSettings, baseSettings] using h14
  · simpa [titleSep, totalsLineSettings, baseSettings] using h12
  · have h12q : jsRound (12 : ℚ) = 12 := jsRound_val _ _ (by norm_num) (by norm_num)
    simp only [specTitleSeparation, baseSettings]
    norm_num [h12q]
    exact jsRound_val _ _ (by norm_num) (by norm_num)
  · simp [titleSep, baseSettings]

/-- C9 amended: the polyline-with-totals separation is `spacing =
round(fontSize * 1.0)` (the code's "one standard line step"), not the 1.2
line height; the polygon formula holds only when at least one measurement
line is present, with zero separation otherwise; points get zero. -/
theorem title_separation_amended (settings : DrawSettings)
    (paths rings : List (List Pt)) (p : Pt) :
    (settings.labels.showTotals = true →
      titleSep settings (.polyline paths) = jsRound (settings.text.fontSize * 1))
    ∧ (∀ mL : ℕ,
        mL = (if settings.labels.showTotals then 2 else 0) +
             (if settings.labels.showCircleRadius then 1 else 0) →
        (0 < mL → titleSep settings (.polygon rings) =
          jsRound ((((mL : ℚ) + 1) / 2) *
            ((jsRound (settings.text.fontSize * 1) : ℤ) : ℚ)))
        ∧ (mL = 0 → titleSep settings (.polygon rings) = 0))
    ∧ titleSep settings (.point p) = 0 := by
  refine ⟨fun h => by simp [titleSep, h], fun mL hml => ⟨fun hpos => ?_, fun hzero => ?_⟩, by simp [titleSep]⟩
  · subst hml
    simp only [titleSep]
    rw [if_pos hpos]
  · subst hml
    simp only [titleSep]
    rw [if_neg (by omega)]

/-- Witness for the amended C9 on concrete settings: totals polyline, a
polygon with no measurement lines, and a point. -/
theorem title_separation_amended_witness :
    titleSep totalsLineSettings (.polyline [[⟨0, 0⟩]]) =
      jsRound (totalsLineSettings.text.fontSize * 1)
    ∧ titleSep baseSettings (.polygon [[⟨0, 0⟩]]) = 0
    ∧ titleSep baseSettings (.point ⟨0, 0⟩) = 0 :=
  ⟨(title_separation_amended totalsLineSettings [[⟨0, 0⟩]] [[⟨0, 0⟩]] ⟨0, 0⟩).1 rfl,
   ((title_separation_amended baseSettings [[⟨0, 0⟩]] [[⟨0, 0⟩]] ⟨0, 0⟩).2.1 0 rfl).2 rfl,
   (title_separation_amended baseSettings [[⟨0, 0⟩]] [[⟨0, 0⟩]] ⟨0, 0⟩).2.2⟩

/-! ## C6: the circle-radius label line -/

/-- Ring fixture for a small triangle "polygon". -/
def triRings : List (List Pt) := [[⟨0, 0⟩, ⟨1, 0⟩, ⟨0, 1⟩, ⟨0, 0⟩]]

/-- The triangle polygon. -/
def trianglePoly : Geom := .polygon triRings

/-- Settings with only `showCircleRadius` enabled and the polygon tool. -/
def radiusSettings : DrawSettings :=
  { baseSettings with labels := { baseSettings.labels with showCircleRadius := true } }

/-- Engine with a centroid, a radius distance of 7 and a constant
`toFixed`. -/
def radiusEngine : Engine :=
  { baseEngine with centroid := fun _ => some ⟨0, 0⟩,
                    distance := fun _ _ _ => some (.num 7),
                    toFixed := fun _ _ => "7.00" }

/-- State with one finished polygon graphic (id "a") on the draw layer. -/
def radiusState : SketchState :=
  { baseState with
    heap := fun r => if r = 0 then { geometry := some trianglePoly, sid := some "a" } else {},
    nextRef := 1,
    drawLayer := [0],
    currentSettings := some radiusSettings }

/-- C6 counterexample: completing a polygon whose tool tag becomes
`polygon` (not `circle`) with `showCircleRadius` enabled persists a center
label reading `R = 7.00 m` — label generation emits the radius line without
any tool-tag check. -/
theorem radius_line_without_circle_tool_cex :
    ((handleCreate radiusEngine {} .complete (some 0) radiusState).heap 0).tool
      = some GeometryTool.polygon
    ∧ GeometryTool.polygon ≠ GeometryTool.circle
    ∧ ((handleCreate radiusEngine {} .complete (some 0) radiusState).heap 1).text
      = some "R = 7.00 m"
    ∧ idxGet (handleCreate radiusEngine {} .complete (some 0) radiusState).labelIndex "a"
      = some [1] := by
  refine ⟨by decide, by decide, by decide, by decide⟩

/-- C6 amended: the center-block radius line is governed solely by the
`showCircleRadius` flag — label generation is entirely independent of the
settings' tool (and of any tool tag), and whenever the flag is set the
polygon line list contains the `R = ...` entry. -/
theorem radius_line_follows_flag (E : Engine) (cfg : MeasCfg)
    (settings : DrawSettings) (t : GeometryTool) (geom : Geom)
    (rings : List (List Pt)) :
    makeLabelsForGeometry E cfg { settings with tool := t } geom
      = makeLabelsForGeometry E cfg settings geom
    ∧ (settings.labels.showCircleRadius = true →
        "R = " ++ formatLength E cfg (radiusFromPolygon E cfg (.polygon rings)) ∈
          polygonCenterLines E cfg settings rings) := by
  constructor
  · rfl
  · intro h
    simp [polygonCenterLines, h]

/-- Witness for the amended C6 at the concrete triangle fixture. -/
theorem radius_line_follows_flag_witness :
    makeLabelsForGeometry radiusEngine {} { radiusSettings with tool := .circle } trianglePoly
      = makeLabelsForGeometry radiusEngine {} radiusSettings trianglePoly
    ∧ "R = " ++ formatLength radiusEngine {} (radiusFromPolygon radiusEngine {} (.polygon triRings)) ∈
        polygonCenterLines radiusEngine {} radiusSettings triRings :=
  ⟨(radius_line_follows_flag radiusEngine {} radiusSettings .circle trianglePoly triRings).1,
   (radius_line_follows_flag radiusEngine {} radiusSettings .circle trianglePoly triRings).2 rfl⟩

/-! ## C7: identifier stability and uniqueness -/

/-- Engine whose external id-string source repeats (`Date.now()` returning
the same millisecond and `Math.random()` the same suffix). -/
def repeatIdEngine : Engine := { baseEngine with gen := fun _ => "g-dup" }

/-- Two freshly created shapes, neither with an attached id. -/
def twoShapesState : SketchState := { baseState with nextRef := 2, drawLayer := [0, 1] }

/-- C7 counterexample: when the external time/random source repeats, two
distinct fresh shapes receive the same identifier — the accessor guarantees
no process-wide uniqueness beyond its inputs. -/
theorem fresh_id_collision_cex :
    (getGraphicId repeatIdEngine 0 twoShapesState).1 = "g-dup"
    ∧ (getGraphicId repeatIdEngine 1 ((getGraphicId repeatIdEngine 0 twoShapesState).2)).1
      = "g-dup"
    ∧ ((getGraphicId repeatIdEngine 0 twoShapesState).2.heap 0).sid = some "g-dup" := by
  refine ⟨by decide, by decide, by decide⟩

/-- C7 amended: the accessor is stable — a second call returns the same
identifier and performs no further state change — and a freshly generated
identifier differs from every already-attached identifier provided the
generated string is not already in use. -/
theorem graphic_id_stable_unique (E : Engine) (s : SketchState) (r : Nat) :
    (∀ id1 s1, getGraphicId E r s = (id1, s1) → getGraphicId E r s1 = (id1, s1))
    ∧ ((s.heap r).sid = none →
        (∀ x id', (s.heap x).sid = some id' → E.gen s.genPos ≠ id') →
        ∀ x id', (s.heap x).sid = some id' → (getGraphicId E r s).1 ≠ id') := by
  constructor
  · intro id1 s1 heq
    cases h : (s.heap r).sid with
    | some id =>
      simp only [getGraphicId, h] at heq
      injection heq with h1 h2
      subst h1
      subst h2
      simp [getGraphicId, h]
    | none =>
      simp only [getGraphicId, h] at heq
      injection heq with h1 h2
      subst h1
      subst h2
      simp [getGraphicId, SketchState.setGraphic]
  · intro hnone hfree x id' hx
    simp only [getGraphicId, hnone]
    exact hfree x id' hx

/-- State with one shape already carrying id "a" and one fresh shape. -/
def idWitnessState : SketchState :=
  { baseState with
    heap := fun x => if x = 1 then { sid := some "a" } else {},
    nextRef := 2,
    drawLayer := [0, 1] }

/-- Witness for the amended C7: the fresh shape's new identifier differs from
the existing "a", and a repeated call is a no-op returning the same pair. -/
theorem graphic_id_stable_unique_witness :
    (getGraphicId baseEngine 0 idWitnessState).1 ≠ "a"
    ∧ getGraphicId baseEngine 0 ((getGraphicId baseEngine 0 idWitnessState).2)
      = ((getGraphicId baseEngine 0 idWitnessState).1,
         (getGraphicId baseEngine 0 idWitnessState).2) := by
  constructor
  · refine (graphic_id_stable_unique baseEngine idWitnessState 0).2 (by decide) ?_ 1 "a" (by decide)
    intro x id' hx
    simp only [idWitnessState] at hx
    by_cases h1 : x = 1
    · subst h1
      simp at hx
      subst hx
      decide
    · rw [if_neg h1] at hx
      exact Option.noConfusion hx
  · exact (graphic_id_stable_unique baseEngine idWitnessState 0).1 _ _ rfl

/-! ## C4: identifiers published for clones -/

/-- A joint-editing session: source shape 0 (id "src-1") on the draw layer,
its clone 1 (no id) in the working collection, the render target on the
working collection. -/
def jointSessionState : SketchState :=
  { baseState with
    heap := fun r => if r = 0 then { sid := some "src-1" } else {},
    nextRef := 2,
    drawLayer := [0],
    selectionLayer := some [1],
    selectionMap := [(1, 0)],
    svmLayer := .selection }

/-- C4: during the active phase of an update over the working collection, the
published selected-identifier set is computed on the clones themselves: the
accessor mints a fresh identifier ("g-0") for the id-less clone and attaches
it, instead of borrowing the source's "src-1". -/
theorem clone_id_minted_during_active :
    (handleUpdate baseEngine {} .active [1] jointSessionState).pubSelectedIds = ["g-0"]
    ∧ ((handleUpdate baseEngine {} .active [1] jointSessionState).heap 1).sid = some "g-0"
    ∧ (jointSessionState.heap 1).sid = none
    ∧ (jointSessionState.heap 0).sid = some "src-1"
    ∧ "g-0" ≠ "src-1" := by
  refine ⟨by decide, by decide, by decide, by decide, by decide⟩

/-! ## C3: cancel and active phases leave sources alone

`sourcesIntact s s'` says `s'` keeps the persisted label index, the draw and
text collections, and the geometry of every graphic already allocated in `s`
(fresh allocations above `s.nextRef` — transient label graphics — are the
only heap growth). -/

/-- The frame a cancel or active phase must preserve. -/
def sourcesIntact (s s' : SketchState) : Prop :=
  s'.labelIndex = s.labelIndex ∧ s'.drawLayer = s.drawLayer ∧ s'.textLayer = s.textLayer ∧
  s.nextRef ≤ s'.nextRef ∧
  ∀ r, r < s.nextRef → (s'.heap r).geometry = (s.heap r).geometry

theorem sourcesIntact_refl (s : SketchState) : sourcesIntact s s :=
  ⟨rfl, rfl, rfl, le_refl _, fun _ _ => rfl⟩

theorem sourcesIntact_trans {s1 s2 s3 : SketchState}
    (h12 : sourcesIntact s1 s2) (h23 : sourcesIntact s2 s3) : sourcesIntact s1 s3 := by
  obtain ⟨a1, b1, c1, d1, e1⟩ := h12
  obtain ⟨a2, b2, c2, d2, e2⟩ := h23
  exact ⟨a2.trans a1, b2.trans b1, c2.trans c1, d1.trans d2,
    fun r hr => (e2 r (lt_of_lt_of_le hr d1)).trans (e1 r hr)⟩

theorem intact_clearTempLabels (s : SketchState) : sourcesIntact s (clearTempLabels s) := by
  unfold clearTempLabels
  split
  · exact sourcesIntact_refl s
  · exact ⟨rfl, rfl, rfl, le_refl _, fun _ _ => rfl⟩

theorem intact_alloc (s : SketchState) (g : Graphic) : sourcesIntact s ((s.alloc g).2) := by
  refine ⟨rfl, rfl, rfl, Nat.le_succ _, fun r hr => ?_⟩
  show ((fun x => if x = s.nextRef then g else s.heap x) r).geometry = _
  simp only []
  rw [if_neg (by omega)]

theorem intact_getGraphicId (E : Engine) (r : Nat) (s : SketchState) :
    sourcesIntact s ((getGraphicId E r s).2) := by
  unfold getGraphicId
  cases h : (s.heap r).sid with
  | some id => exact sourcesIntact_refl s
  | none =>
    refine ⟨rfl, rfl, rfl, le_refl _, fun x hx => ?_⟩
    show ((SketchState.setGraphic s r _).heap x).geometry = _
    unfold SketchState.setGraphic
    simp only []
    by_cases hxr : x = r
    · subst hxr
      simp
    · simp [hxr]

theorem intact_addLabels (L : List Graphic) : ∀ s, sourcesIntact s ((addLabels L s).2) := by
  induction L with
  | nil => exact fun s => sourcesIntact_refl s
  | cons g gs ih =>
    intro s
    exact sourcesIntact_trans (intact_alloc s g)
      (sourcesIntact_trans ⟨rfl, rfl, rfl, le_refl _, fun _ _ => rfl⟩ (ih _))

theorem intact_mapGetGraphicIds (E : Engine) (rs : List Nat) :
    ∀ s, sourcesIntact s ((mapGetGraphicIds E rs s).2) := by
  induction rs with
  | nil => exact fun s => sourcesIntact_refl s
  | cons r rest ih =>
    intro s
    exact sourcesIntact_trans (intact_getGraphicId E r s) (ih _)

theorem intact_buildMeasurements (E : Engine) (cfg : MeasCfg) (gs : List Nat) :
    ∀ s, sourcesIntact s ((buildMeasurementsForGraphics E cfg gs s).2) := by
  induction gs with
  | nil => exact fun s => sourcesIntact_refl s
  | cons g rest ih =>
    intro s
    show sourcesIntact s ((buildMeasurementsForGraphics E cfg (g :: rest) s).2)
    rw [buildMeasurementsForGraphics]
    cases hg : (s.heap g).geometry with
    | none => exact ih s
    | some geom =>
      cases geom with
      | point p => exact ih s
      | polyline paths =>
        exact sourcesIntact_trans (intact_getGraphicId E _ s) (ih _)
      | polygon rings =>
        exact sourcesIntact_trans (intact_getGraphicId E _ s) (ih _)

theorem intact_publish (E : Engine) (cfg : MeasCfg) (gs : List Nat) (s : SketchState) :
    sourcesIntact s (publishMeasurementsFromGraphics E cfg gs s) := by
  unfold publishMeasurementsFromGraphics
  cases s.currentSettings with
  | none => exact ⟨rfl, rfl, rfl, le_refl _, fun _ _ => rfl⟩
  | some settings =>
    exact sourcesIntact_trans (intact_buildMeasurements E cfg gs s)
      ⟨rfl, rfl, rfl, le_refl _, fun _ _ => rfl⟩

theorem intact_addUpdateTempLabels (E : Engine) (cfg : MeasCfg) (settings : DrawSettings)
    (gs : List Nat) : ∀ s, sourcesIntact s (addUpdateTempLabels E cfg settings gs s) := by
  induction gs with
  | nil => exact fun s => sourcesIntact_refl s
  | cons g rest ih =>
    intro s
    show sourcesIntact s (addUpdateTempLabels E cfg settings (g :: rest) s)
    rw [addUpdateTempLabels]
    cases hg : (s.heap g).geometry with
    | none => exact ih s
    | some geom =>
      exact sourcesIntact_trans (intact_addLabels _ s)
        (sourcesIntact_trans ⟨rfl, rfl, rfl, le_refl _, fun _ _ => rfl⟩ (ih _))

/-- Trivial `sourcesIntact` for record updates leaving heap and the three
tracked fields alone. -/
theorem intact_mk {s s' : SketchState} (hli : s'.labelIndex = s.labelIndex)
    (hdl : s'.drawLayer = s.drawLayer) (htl : s'.textLayer = s.textLayer)
    (hnr : s'.nextRef = s.nextRef)
    (hh : ∀ r, (s'.heap r).geometry = (s.heap r).geometry) : sourcesIntact s s' :=
  ⟨hli, hdl, htl, le_of_eq hnr.symm, fun r _ => hh r⟩

theorem intact_setIsEditing (s : SketchState) (b : Bool) :
    sourcesIntact s { s with isEditing := b } :=
  intact_mk rfl rfl rfl rfl fun _ => rfl

theorem intact_setSelectionMode (s : SketchState) (b : Bool) :
    sourcesIntact s { s with selectionMode := b } :=
  intact_mk rfl rfl rfl rfl fun _ => rfl

theorem intact_setTempLabels (s : SketchState) (v : List Nat) :
    sourcesIntact s { s with tempLabels := v } :=
  intact_mk rfl rfl rfl rfl fun _ => rfl

theorem intact_setPubSelectedIds (s : SketchState) (v : List String) :
    sourcesIntact s { s with pubSelectedIds := v } :=
  intact_mk rfl rfl rfl rfl fun _ => rfl

/-- C3: the cancel phase of every operation (creation, update, and selection
— the latter is creation handled in selection mode) and every active phase
leave the label index, the draw and text collections, and every existing
shape's geometry exactly as they were; only commits mutate sources. -/
theorem cancel_active_preserve_sources (E : Engine) (cfg : MeasCfg)
    (gOpt : Option Nat) (gs : List Nat) (s : SketchState) :
    sourcesIntact s (handleCreate E cfg .active gOpt s)
    ∧ sourcesIntact s (handleCreate E cfg .cancel gOpt s)
    ∧ sourcesIntact s (handleUpdate E cfg .active gs s)
    ∧ sourcesIntact s (handleUpdate E cfg .cancel gs s) := by
  obtain ⟨SH, SN, SD, SL, ST, SSel, SMap, SSvm, SLi, STmp, SMode, SEd, SCfg, SGen,
    SPids, SPms⟩ := s
  refine ⟨?_, ?_, ?_, ?_⟩
  · -- create, active phase
    rw [handleCreate]
    cases SCfg with
    | none => exact sourcesIntact_refl _
    | some settings =>
      by_cases hm : SMode = true
      · simp only [hm, if_true]
        exact sourcesIntact_refl _
      · simp only [if_neg hm]
        cases hgeom : gOpt.bind (fun r => (SH r).geometry) with
        | none => exact sourcesIntact_refl _
        | some gg =>
          by_cases hd : settings.labels.showDuringDraw = true
          · simp only [hd, if_true]
            exact sourcesIntact_trans
              (sourcesIntact_trans (intact_setIsEditing _ true) (intact_clearTempLabels _))
              (sourcesIntact_trans (intact_addLabels _ _) (intact_setTempLabels _ _))
          · simp only [if_neg hd]
            exact sourcesIntact_trans (intact_setIsEditing _ true) (intact_clearTempLabels _)
  · -- create, cancel phase
    rw [handleCreate]
    cases SCfg with
    | none => exact sourcesIntact_refl _
    | some settings =>
      by_cases hm : SMode = true
      · simp only [hm, if_true]
        exact sourcesIntact_trans
          (sourcesIntact_trans (intact_setSelectionMode _ false) (intact_clearTempLabels _))
          (intact_setPubSelectedIds _ _)
      · simp only [if_neg hm]
        exact sourcesIntact_trans (intact_setIsEditing _ false) (intact_clearTempLabels _)
  · -- update, active phase
    rw [handleUpdate]
    cases SCfg with
    | none => exact sourcesIntact_refl _
    | some settings =>
      by_cases hd : settings.labels.showDuringDraw = true
      · simp only [hd, if_true]
        exact sourcesIntact_trans
          (sourcesIntact_trans
            (sourcesIntact_trans (intact_setIsEditing _ true) (intact_clearTempLabels _))
            (intact_addUpdateTempLabels E cfg settings gs _))
          (sourcesIntact_trans (intact_publish E cfg gs _)
            (sourcesIntact_trans (intact_mapGetGraphicIds E gs _)
              (intact_setPubSelectedIds _ _)))
      · simp only [if_neg hd]
        exact sourcesIntact_trans
          (sourcesIntact_trans (intact_setIsEditing _ true) (intact_clearTempLabels _))
          (sourcesIntact_trans (intact_publish E cfg gs _)
            (sourcesIntact_trans (intact_mapGetGraphicIds E gs _)
              (intact_setPubSelectedIds _ _)))
  · -- update, cancel phase
    rw [handleUpdate]
    cases SCfg with
    | none => exact sourcesIntact_refl _
    | some settings =>
      exact sourcesIntact_trans
        (sourcesIntact_trans (intact_setIsEditing _ false) (intact_clearTempLabels _))
        (intact_setPubSelectedIds _ _)

/-- Witness for C3 at concrete canceled operations: a create-cancel keeps the
label index and draw layer, an update-cancel keeps an existing source
geometry. -/
theorem cancel_active_preserve_sources_witness :
    (handleCreate radiusEngine {} .cancel (some 0) radiusState).labelIndex
      = radiusState.labelIndex
    ∧ (handleCreate radiusEngine {} .cancel (some 0) radiusState).drawLayer
      = radiusState.drawLayer
    ∧ ((handleUpdate radiusEngine {} .cancel [0] radiusState).heap 0).geometry
      = (radiusState.heap 0).geometry := by
  have hc := (cancel_active_preserve_sources radiusEngine {} (some 0) [0] radiusState).2.1
  have hu := (cancel_active_preserve_sources radiusEngine {} (some 0) [0] radiusState).2.2.2
  exact ⟨hc.1, hc.2.1, hu.2.2.2.2 0 (by decide)⟩

/-! ## C2: committing a joint-editing session -/

theorem setGraphic_heap_self (s : SketchState) (r : Nat) (g : Graphic) :
    (s.setGraphic r g).heap r = g := by
  unfold SketchState.setGraphic
  simp

theorem setGraphic_heap_ne (s : SketchState) (r : Nat) (g : Graphic) (x : Nat)
    (h : x ≠ r) : (s.setGraphic r g).heap x = s.heap x := by
  unfold SketchState.setGraphic
  simp [h]

/-- `getGraphicId` only writes an id: geometry (at every handle), the clone
map and the working collection are untouched. -/
theorem getGraphicId_frame (E : Engine) (r : Nat) (s : SketchState) :
    (∀ x, (((getGraphicId E r s).2).heap x).geometry = (s.heap x).geometry)
    ∧ ((getGraphicId E r s).2).selectionMap = s.selectionMap
    ∧ ((getGraphicId E r s).2).selectionLayer = s.selectionLayer := by
  unfold getGraphicId
  cases h : (s.heap r).sid with
  | some id => exact ⟨fun _ => rfl, rfl, rfl⟩
  | none =>
    refine ⟨fun x => ?_, rfl, rfl⟩
    show ((SketchState.setGraphic s r _).heap x).geometry = _
    by_cases hxr : x = r
    · subst hxr
      rw [setGraphic_heap_self]
    · rw [setGraphic_heap_ne _ _ _ _ hxr]

/-- Building measurement rows mints ids at most: geometry, clone map and
working collection are untouched. -/
theorem buildMeasurements_frame (E : Engine) (cfg : MeasCfg) (gs : List Nat) :
    ∀ s : SketchState,
    (∀ x, (((buildMeasurementsForGraphics E cfg gs s).2).heap x).geometry
        = (s.heap x).geometry)
    ∧ ((buildMeasurementsForGraphics E cfg gs s).2).selectionMap = s.selectionMap
    ∧ ((buildMeasurementsForGraphics E cfg gs s).2).selectionLayer = s.selectionLayer := by
  induction gs with
  | nil => exact fun s => ⟨fun _ => rfl, rfl, rfl⟩
  | cons g rest ih =>
    intro s
    rw [buildMeasurementsForGraphics]
    cases hg : (s.heap g).geometry with
    | none => exact ih s
    | some geom =>
      cases geom with
      | point p => exact ih s
      | polyline paths =>
        refine ⟨fun x => ?_, ?_, ?_⟩
        · exact ((ih _).1 x).trans ((getGraphicId_frame E _ s).1 x)
        · exact ((ih _).2.1).trans ((getGraphicId_frame E _ s).2.1)
        · exact ((ih _).2.2).trans ((getGraphicId_frame E _ s).2.2)
      | polygon rings =>
        refine ⟨fun x => ?_, ?_, ?_⟩
        · exact ((ih _).1 x).trans ((getGraphicId_frame E _ s).1 x)
        · exact ((ih _).2.1).trans ((getGraphicId_frame E _ s).2.1)
        · exact ((ih _).2.2).trans ((getGraphicId_frame E _ s).2.2)

/-- Publishing measurements leaves geometry, the clone map and the working
collection untouched. -/
theorem publish_frame (E : Engine) (cfg : MeasCfg) (gs : List Nat) (s : SketchState) :
    (∀ x, ((publishMeasurementsFromGraphics E cfg gs s).heap x).geometry
        = (s.heap x).geometry)
    ∧ (publishMeasurementsFromGraphics E cfg gs s).selectionMap = s.selectionMap
    ∧ (publishMeasurementsFromGraphics E cfg gs s).selectionLayer = s.selectionLayer := by
  unfold publishMeasurementsFromGraphics
  cases s.currentSettings with
  | none => exact ⟨fun _ => rfl, rfl, rfl⟩
  | some st =>
    exact ⟨fun x => (buildMeasurements_frame E cfg gs s).1 x,
      (buildMeasurements_frame E cfg gs s).2.1, (buildMeasurements_frame E cfg gs s).2.2⟩

/-- The copy-back loop only writes heap cells: clone map and working
collection survive. -/
theorem commitClones_layers (gs : List Nat) : ∀ s : SketchState,
    (commitClones gs s).selectionMap = s.selectionMap
    ∧ (commitClones gs s).selectionLayer = s.selectionLayer := by
  induction gs with
  | nil => exact fun s => ⟨rfl, rfl⟩
  | cons g rest ih =>
    intro s
    rw [commitClones]
    cases hm : assocGet s.selectionMap g with
    | none => exact ih s
    | some src => exact ⟨((ih _).1).trans rfl, ((ih _).2).trans rfl⟩

/-- A handle that is no clone's mapped source is never written by the
copy-back loop. -/
theorem commitClones_untouched (gs : List Nat) : ∀ (s : SketchState) (r : Nat),
    (∀ g ∈ gs, assocGet s.selectionMap g ≠ some r) →
    (commitClones gs s).heap r = s.heap r := by
  induction gs with
  | nil => intro s r _; rfl
  | cons g0 rest ih =>
    intro s r hr
    rw [commitClones]
    cases hm : assocGet s.selectionMap g0 with
    | none => exact ih s r fun g hg => hr g (List.mem_cons_of_mem _ hg)
    | some src0 =>
      have hsrc0r : src0 ≠ r := fun he => hr g0 (List.mem_cons_self _ _) (he ▸ hm)
      have hstep := ih (s.setGraphic src0 { s.heap src0 with geometry := (s.heap g0).geometry }) r
        (fun g hg => hr g (List.mem_cons_of_mem _ hg))
      rw [hstep, setGraphic_heap_ne _ _ _ _ (Ne.symm hsrc0r)]

/-- For each clone with a map entry — the entries pairwise injective over the
batch and no batch member itself a mapped source — the copy-back loop ends
with the source carrying the clone's geometry. -/
theorem commitClones_hits (gs : List Nat) : ∀ s : SketchState,
    (∀ g ∈ gs, ∀ g' ∈ gs, assocGet s.selectionMap g' ≠ some g) →
    (∀ g ∈ gs, ∀ g' ∈ gs, ∀ src, assocGet s.selectionMap g = some src →
        assocGet s.selectionMap g' = some src → g = g') →
    ∀ g ∈ gs, ∀ src, assocGet s.selectionMap g = some src →
      ((commitClones gs s).heap src).geometry = (s.heap g).geometry := by
  induction gs with
  | nil =>
    intro s _ _ g hg
    exact absurd hg (List.not_mem_nil g)
  | cons g0 rest ih =>
    intro s hsep hinj g hg src hget
    rw [commitClones]
    cases hm : assocGet s.selectionMap g0 with
    | none =>
      rcases List.mem_cons.mp hg with rfl | hgr
      · rw [hm] at hget
        exact absurd hget (by simp)
      · exact ih s
          (fun a ha b hb => hsep a (List.mem_cons_of_mem _ ha) b (List.mem_cons_of_mem _ hb))
          (fun a ha b hb => hinj a (List.mem_cons_of_mem _ ha) b (List.mem_cons_of_mem _ hb))
          g hgr src hget
    | some src0 =>
      have hsrc0_not : ∀ y ∈ g0 :: rest, y ≠ src0 := fun y hy he =>
        hsep src0 (he ▸ hy) g0 (List.mem_cons_self _ _) hm
      have hsepR : ∀ a ∈ rest, ∀ b ∈ rest,
          assocGet (s.setGraphic src0 { s.heap src0 with
            geometry := (s.heap g0).geometry }).selectionMap b ≠ some a :=
        fun a ha b hb => hsep a (List.mem_cons_of_mem _ ha) b (List.mem_cons_of_mem _ hb)
      have hinjR : ∀ a ∈ rest, ∀ b ∈ rest, ∀ src', assocGet (s.setGraphic src0
            { s.heap src0 with geometry := (s.heap g0).geometry }).selectionMap a = some src' →
          assocGet (s.setGraphic src0 { s.heap src0 with
            geometry := (s.heap g0).geometry }).selectionMap b = some src' → a = b :=
        fun a ha b hb src' h1 h2 =>
          hinj a (List.mem_cons_of_mem _ ha) b (List.mem_cons_of_mem _ hb) src' h1 h2
      rcases List.mem_cons.mp hg with rfl | hgr
      · -- the head clone itself (named g after the case split)
        have hss : src0 = src := by
          rw [hm] at hget
          exact Option.some.inj hget
        rw [← hss]
        by_cases hr : ∀ g' ∈ rest, assocGet s.selectionMap g' ≠ some src0
        · rw [commitClones_untouched rest
            (s.setGraphic src0 { s.heap src0 with geometry := (s.heap g).geometry }) src0 hr,
            setGraphic_heap_self]
        · push_neg at hr
          obtain ⟨g', hg', hget'⟩ := hr
          have hg'g : g' = g :=
            hinj g' (List.mem_cons_of_mem _ hg') g (List.mem_cons_self _ _) src0 hget' hm
          rw [hg'g] at hg' hget'
          have hstep := ih (s.setGraphic src0 { s.heap src0 with
              geometry := (s.heap g).geometry }) hsepR hinjR g hg' src0 hget'
          rw [hstep, setGraphic_heap_ne _ _ _ _ (hsrc0_not g (List.mem_cons_self _ _))]
      · -- a clone further down the batch
        have hstep := ih (s.setGraphic src0 { s.heap src0 with
            geometry := (s.heap g0).geometry }) hsepR hinjR g hgr src hget
        rw [hstep, setGraphic_heap_ne _ _ _ _ (hsrc0_not g (List.mem_cons_of_mem _ hgr))]

theorem endSelectionEdit_heap (b : Bool) (s : SketchState) :
    (endSelectionEdit b s).heap = s.heap := by
  unfold endSelectionEdit
  split
  · rfl
  · rfl

theorem endSelectionEdit_fields (b : Bool) (s : SketchState) :
    (endSelectionEdit b s).selectionMap = [] ∧ (endSelectionEdit b s).svmLayer = .draw := by
  unfold endSelectionEdit
  split
  · exact ⟨rfl, rfl⟩
  · exact ⟨rfl, rfl⟩

theorem endSelectionEdit_layer (s : SketchState) (h : s.selectionLayer.isSome = true) :
    (endSelectionEdit true s).selectionLayer = some [] := by
  unfold endSelectionEdit
  rw [if_pos (by simp [h])]

/-- C2: completing an update while the render target is the transient
working collection copies each mapped clone's final geometry onto its source
(clones without a map entry change no source shape), then empties the working
collection, clears the clone map and restores the primary draw collection.
Hypotheses: a live session (working collection present, render target on it,
session settings present) whose clone map is injective over the batch and
maps no batch member to another batch member — both invariants of how the
session builds the map (fresh clones, one per source). -/
theorem selection_commit (E : Engine) (cfg : MeasCfg) (gs : List Nat) (s : SketchState)
    (hsel : s.selectionLayer.isSome = true)
    (hsvm : s.svmLayer = SvmLayer.selection)
    (hcfg : s.currentSettings.isSome = true)
    (hsep : ∀ g ∈ gs, ∀ g' ∈ gs, assocGet s.selectionMap g' ≠ some g)
    (hinj : ∀ g ∈ gs, ∀ g' ∈ gs, ∀ src, assocGet s.selectionMap g = some src →
        assocGet s.selectionMap g' = some src → g = g') :
    (∀ g ∈ gs, ∀ src, assocGet s.selectionMap g = some src →
        ((handleUpdate E cfg .complete gs s).heap src).geometry = (s.heap g).geometry)
    ∧ (∀ r, (∀ g ∈ gs, assocGet s.selectionMap g ≠ some r) →
        ((handleUpdate E cfg .complete gs s).heap r).geometry = (s.heap r).geometry)
    ∧ (handleUpdate E cfg .complete gs s).selectionLayer = some []
    ∧ (handleUpdate E cfg .complete gs s).selectionMap = []
    ∧ (handleUpdate E cfg .complete gs s).svmLayer = SvmLayer.draw := by
  obtain ⟨SH, SN, SD, SL, ST, SSel, SMap, SSvm, SLi, STmp, SMode, SEd, SCfg, SGen,
    SPids, SPms⟩ := s
  have hsvm' : SSvm = SvmLayer.selection := hsvm
  subst hsvm'
  have hsel' : SSel.isSome = true := hsel
  obtain ⟨L, rfl⟩ := Option.isSome_iff_exists.mp hsel'
  have hcfg' : SCfg.isSome = true := hcfg
  obtain ⟨settings, rfl⟩ := Option.isSome_iff_exists.mp hcfg'
  simp only [handleUpdate, Option.isSome_some, Bool.true_and, decide_eq_true_eq, if_true]
  have hPmap : (publishMeasurementsFromGraphics E cfg gs
      (⟨SH, SN, SD, SL, ST, some L, SMap, .selection, SLi, STmp, SMode, false,
        some settings, SGen, SPids, SPms⟩ : SketchState)).selectionMap = SMap :=
    (publish_frame E cfg gs _).2.1
  have hPheap : ∀ x, ((publishMeasurementsFromGraphics E cfg gs
      (⟨SH, SN, SD, SL, ST, some L, SMap, .selection, SLi, STmp, SMode, false,
        some settings, SGen, SPids, SPms⟩ : SketchState)).heap x).geometry = (SH x).geometry :=
    (publish_frame E cfg gs _).1
  have hPlayer : (publishMeasurementsFromGraphics E cfg gs
      (⟨SH, SN, SD, SL, ST, some L, SMap, .selection, SLi, STmp, SMode, false,
        some settings, SGen, SPids, SPms⟩ : SketchState)).selectionLayer = some L :=
    (publish_frame E cfg gs _).2.2
  refine ⟨?_, ?_, ?_, (endSelectionEdit_fields _ _).1, (endSelectionEdit_fields _ _).2⟩
  · intro g hg src hget
    rw [endSelectionEdit_heap]
    have hhits := commitClones_hits gs
      (publishMeasurementsFromGraphics E cfg gs
        (⟨SH, SN, SD, SL, ST, some L, SMap, .selection, SLi, STmp, SMode, false,
          some settings, SGen, SPids, SPms⟩ : SketchState))
      (fun a ha b hb => by rw [hPmap]; exact hsep a ha b hb)
      (fun a ha b hb src' h1 h2 =>
        hinj a ha b hb src' (by rwa [hPmap] at h1) (by rwa [hPmap] at h2))
      g hg src (by rwa [hPmap])
    rw [hhits]
    exact hPheap g
  · intro r hr
    rw [endSelectionEdit_heap]
    have huntouched := commitClones_untouched gs
      (publishMeasurementsFromGraphics E cfg gs
        (⟨SH, SN, SD, SL, ST, some L, SMap, .selection, SLi, STmp, SMode, false,
          some settings, SGen, SPids, SPms⟩ : SketchState)) r
      (fun g hg => by rw [hPmap]; exact hr g hg)
    rw [huntouched]
    exact hPheap r
  · refine endSelectionEdit_layer _ ?_
    rw [(commitClones_layers gs _).2, hPlayer]
    rfl

/-- A live joint-editing session over one polyline: source 0 (a point,
id "src-1") on the draw layer, clone 1 carrying the edited polyline geometry
in the working collection. -/
def commitWitnessState : SketchState :=
  { baseState with
    heap := fun r =>
      if r = 0 then { geometry := some (.point ⟨0, 0⟩), sid := some "src-1" }
      else if r = 1 then { geometry := some oneEdgeLine } else {},
    nextRef := 2,
    drawLayer := [0],
    selectionLayer := some [1],
    selectionMap := [(1, 0)],
    svmLayer := .selection }

/-- Witness for C2: the concrete commit copies the clone's polyline onto the
source and tears the session down. -/
theorem selection_commit_witness :
    ((handleUpdate baseEngine {} .complete [1] commitWitnessState).heap 0).geometry
      = some oneEdgeLine
    ∧ (handleUpdate baseEngine {} .complete [1] commitWitnessState).selectionLayer = some []
    ∧ (handleUpdate baseEngine {} .complete [1] commitWitnessState).selectionMap = []
    ∧ (handleUpdate baseEngine {} .complete [1] commitWitnessState).svmLayer
      = SvmLayer.draw := by
  have h := selection_commit baseEngine {} [1] commitWitnessState (by decide) (by decide)
    (by decide) (by decide) (by decide)
  refine ⟨?_, h.2.2.1, h.2.2.2.1, h.2.2.2.2⟩
  have h1 := h.1 1 (by decide) 0 (by decide)
  rw [h1]
  rfl

end Sketch
